import Mathlib

/-!
Subscriptions service: validation layer, handlers and in-memory store

A shallow embedding of the validation layer and the handlers of `subs.go` and
of the in-memory store `MockDB` of `subs_test.go`, followed by the properties
proved about them.

Conventions of the embedding

* A Go `string` is a sequence of bytes.  It is modelled by `GoString = List Char`,
  one `Char` per byte (the byte `b` is the character with code `b`), so that
  `len` is `List.length` and ASCII literals read as in the source.
* A Go `error` is `Option GoError`; `none` is `nil`.
* Go `int` is taken to be 64 bits wide; the result of every arithmetic
  operation is reduced by `wrapInt` (two's complement wrap-around).
* A run-time panic (nil dereference, index out of range) is the result `none`
  of a function returning `Option`.
* A Go map is the list of its entries; `range` visits them in list order, and
  `sum_perm` shows that the order does not change the result of `MockDB.Sum`.
-/

namespace Subs

/-! ## Go primitives -/

/-- A Go string: its bytes, one `Char` per byte. -/
abbrev GoString := List Char

/-- The message carried by a non-nil Go `error`. -/
abbrev GoError := String

/-- Two's complement wrap-around of a mathematical integer to the 64-bit `int`. -/
def wrapInt (x : Int) : Int := (x + 2 ^ 63) % 2 ^ 64 - 2 ^ 63

/-- The value of an ASCII decimal digit, `none` for any other byte
(`ch -= '0'; if ch > 9 { error }`). -/
def digitVal (c : Char) : Option Nat :=
  if 48 ≤ c.toNat ∧ c.toNat ≤ 57 then some (c.toNat - 48) else none

/-- The digit loop shared by `strconv.Atoi` (fast path): `n = n*10 + int(ch)`,
failing on the first byte that is not a decimal digit. -/
def atoiLoop : List Char → Nat → Option Nat
  | [], n => some n
  | c :: cs, n =>
    match digitVal c with
    | none => none
    | some d => atoiLoop cs (n * 10 + d)

/-- The outcome of the digit loop of `strconv.ParseUint(s, 10, 64)`. -/
inductive UintResult where
  | ok (n : Nat)
  | syntaxErr
  | rangeErr
  deriving DecidableEq, Repr

/-- The digit loop of `strconv.ParseUint` in base 10 with 64 bits: a non-digit
is a syntax error, and overflow is reported as soon as it is met. -/
def parseUintLoop : List Char → Nat → UintResult
  | [], n => .ok n
  | c :: cs, n =>
    match digitVal c with
    | none => .syntaxErr
    | some d =>
      if n ≥ (2 ^ 64 - 1) / 10 + 1 then .rangeErr
      else if n * 10 + d > 2 ^ 64 - 1 then .rangeErr
      else parseUintLoop cs (n * 10 + d)

/-- Function `strconv.ParseInt(s, 10, 0)` on a 64-bit platform: the value and
whether the returned error is non-nil. -/
def ParseInt (s : GoString) : Int × Bool :=
  match s with
  | [] => (0, true)
  | c :: cs =>
    let neg := c = '-'
    let body := if c = '+' ∨ c = '-' then cs else c :: cs
    match body with
    | [] => (0, true)
    | _ =>
      match parseUintLoop body 0 with
      | .syntaxErr => (0, true)
      | .rangeErr => if neg then (-(2 ^ 63), true) else (2 ^ 63 - 1, true)
      | .ok un =>
        if ¬ neg ∧ un ≥ 2 ^ 63 then (2 ^ 63 - 1, true)
        else if neg ∧ un > 2 ^ 63 then (-(2 ^ 63), true)
        else (if neg then -(un : Int) else (un : Int), false)

/-- Function `strconv.Atoi` on a 64-bit platform: the value and whether the
returned error is non-nil.  Strings of 1 to 18 bytes take the fast path
(optional sign, then digits only); all others go through `ParseInt`. -/
def Atoi (s : GoString) : Int × Bool :=
  if 0 < s.length ∧ s.length < 19 then
    match s with
    | [] => (0, true)
    | c :: cs =>
      let body := if c = '-' ∨ c = '+' then cs else c :: cs
      match body with
      | [] => (0, true)
      | _ =>
        match atoiLoop body 0 with
        | none => (0, true)
        | some n => (if c = '-' then -(n : Int) else (n : Int), false)
  else ParseInt s

/-- Worker of `Split`: the field that is being read and the fields after it. -/
def splitGo (sep : Char) : GoString → GoString × List GoString
  | [] => ([], [])
  | c :: cs =>
    if c = sep then ([], (splitGo sep cs).1 :: (splitGo sep cs).2)
    else (c :: (splitGo sep cs).1, (splitGo sep cs).2)

/-- Function `strings.Split(s, sep)` for a one-byte separator: the fields of
`s` between the occurrences of `sep`, one more than there are occurrences. -/
def Split (s : GoString) (sep : Char) : List GoString :=
  (splitGo sep s).1 :: (splitGo sep s).2

/-! ## Data model (`subs.go`) -/

/-- The record `Sub`; `End` is the nullable `*string`. -/
structure Sub where
  ID : GoString
  Service : GoString
  Price : Int
  User_ID : GoString
  Start : GoString
  End : Option GoString
  deriving DecidableEq, Repr

/-- The zero value `Sub{}`. -/
def Sub.zero : Sub := ⟨[], [], 0, [], [], none⟩

/-! ## Validation layer (`subs.go`) -/

/-- The error of `validateDate`. -/
def errInvalidDate : GoError := "invalid date string"

/-- Function `validateDate`. -/
def validateDate (date : GoString) : Option GoError :=
  if date = [] ∨ date.length ≠ 7 then some errInvalidDate
  else
    match Split date '-' with
    | [f0, f1] =>
      if (Atoi f0).1 < 1 ∨ (Atoi f0).1 > 12 ∨ (Atoi f0).2 = true then some errInvalidDate
      else if (Atoi f1).1 < 1970 ∨ (Atoi f1).1 > 9999 ∨ (Atoi f1).2 = true then
        some errInvalidDate
      else none
    | _ => some errInvalidDate


/-- A byte that `xtob` of package `uuid` reads as a hexadecimal digit. -/
def isHexByte (c : Char) : Bool :=
  (48 ≤ c.toNat ∧ c.toNat ≤ 57) ∨ (97 ≤ c.toNat ∧ c.toNat ≤ 102) ∨ (65 ≤ c.toNat ∧ c.toNat ≤ 70)

/-- The check of the 36-byte form `xxxxxxxx-xxxx-xxxx-xxxx-xxxxxxxxxxxx`:
a `-` at the offsets 8, 13, 18, 23 and hexadecimal digits elsewhere. -/
def uuidStandard (s : GoString) : Bool :=
  s.enum.all fun p =>
    if p.1 = 8 ∨ p.1 = 13 ∨ p.1 = 18 ∨ p.1 = 23 then p.2 = '-' else isHexByte p.2

/-- ASCII lower case of a byte. -/
def lowerByte (c : Char) : Char :=
  if 65 ≤ c.toNat ∧ c.toNat ≤ 90 then Char.ofNat (c.toNat + 32) else c

/-- Function `uuid.Validate` of the library `github.com/google/uuid` (not part
of this repository), reproduced for use as a concrete validator: the four
accepted lengths 36, 45 (`urn:uuid:` before it), 38 (in braces) and 32 (no
hyphens).  The messages omit the formatted detail of the library's. -/
def uuidValidate (s : GoString) : Option GoError :=
  if s.length = 36 then
    if uuidStandard s then none else some "invalid UUID format"
  else if s.length = 45 then
    if (s.take 9).map lowerByte ≠ "urn:uuid:".toList then some "invalid urn prefix"
    else if uuidStandard (s.drop 9) then none else some "invalid UUID format"
  else if s.length = 38 then
    if s.head? ≠ some '\x7b' ∨ s.getLast? ≠ some '\x7d' then some "invalid bracketed UUID format"
    else if uuidStandard ((s.drop 1).take 36) then none else some "invalid UUID format"
  else if s.length = 32 then
    if s.all isHexByte then none else some "invalid UUID format"
  else some "invalid UUID length"

/-- Function `validateSub`.  The library call `uuid.Validate` is the parameter
`uuidV`; `fmt.Errorf("invalid user id: %w", err)` appends the library's message. -/
def validateSub (uuidV : GoString → Option GoError) (sub : Sub) : Option GoError :=
  if sub.Service = [] then some "empty service name"
  else if sub.Price < 0 then some "invalid price"
  else
    match uuidV sub.User_ID with
    | some err => some ("invalid user id: " ++ err)
    | none =>
      match validateDate sub.Start with
      | some _ => some "invalid start period"
      | none =>
        match sub.End with
        | some e =>
          match validateDate e with
          | some _ => some "invalid end period"
          | none => none
        | none => none

/-- Function `validateFilter`. -/
def validateFilter (uuidV : GoString → Option GoError) (filter : Sub) : Option GoError :=
  match (if filter.User_ID ≠ [] then uuidV filter.User_ID else none) with
  | some err => some ("invalid user id: " ++ err)
  | none =>
    match validateDate filter.Start with
    | some _ => some "invalid start period"
    | none =>
      match filter.End with
      | none => some "invalid end period"
      | some e =>
        match validateDate e with
        | some _ => some "invalid end period"
        | none => none

/-! ## In-memory store (`MockDB`, `subs_test.go`) -/

/-- The store `MockDB`: the Go map `db map[string]Sub` as the list of its
entries.  A Go map holds each key once; the operations below keep that. -/
structure MockDB where
  db : List (GoString × Sub)
  deriving DecidableEq, Repr

/-- The map read `v, ok := db[id]`. -/
def mapGet : List (GoString × Sub) → GoString → Option Sub
  | [], _ => none
  | (k, v) :: rest, id => if k = id then some v else mapGet rest id

/-- The map write `db[id] = sub`: the entry under `id` is replaced, or a new
entry is added. -/
def mapSet : List (GoString × Sub) → GoString → Sub → List (GoString × Sub)
  | [], id, sub => [(id, sub)]
  | (k, v) :: rest, id, sub =>
    if k = id then (id, sub) :: rest else (k, v) :: mapSet rest id sub

/-- The map removal `delete(db, id)`. -/
def mapDelete (db : List (GoString × Sub)) (id : GoString) : List (GoString × Sub) :=
  db.filter fun kv => kv.1 ≠ id

/-- The error `fmt.Errorf("not found")` of the store. -/
def errMockNotFound : GoError := "not found"

/-- Method `MockDB.Create`; `id` is the value drawn by `uuid.NewString()`.
Returns the store afterwards, the id and the error. -/
def MockDB.Create (m : MockDB) (id : GoString) (sub : Sub) :
    MockDB × GoString × Option GoError :=
  (⟨mapSet m.db id { sub with ID := id }⟩, id, none)

/-- Method `MockDB.Read`. -/
def MockDB.Read (m : MockDB) (id : GoString) : Sub × Option GoError :=
  match mapGet m.db id with
  | none => (Sub.zero, some errMockNotFound)
  | some sub => (sub, none)

/-- Method `MockDB.Update`: the store afterwards and the error. -/
def MockDB.Update (m : MockDB) (id : GoString) (sub : Sub) : MockDB × Option GoError :=
  match mapGet m.db id with
  | none => (m, some errMockNotFound)
  | some _ => (⟨mapSet m.db id sub⟩, none)

/-- Method `MockDB.Delete`: the store afterwards and the error. -/
def MockDB.Delete (m : MockDB) (id : GoString) : MockDB × Option GoError :=
  match mapGet m.db id with
  | none => (m, some errMockNotFound)
  | some _ => (⟨mapDelete m.db id⟩, none)

/-- The statement `sum += sub.Price * (hi - lo + 1)` on 64-bit `int`. -/
def addMonths (sum price hi lo : Int) : Int :=
  wrapInt (sum + wrapInt (price * wrapInt (wrapInt (hi - lo) + 1)))

/-- The body of the loop of `MockDB.Sum` for one record: the value of `sum`
after it, or `none` when an index expression panics.  `s` and `e` are the
split start and end of the filter, `u` and `n` its user id and service. -/
def MockDB.sumBody (s e : List GoString) (u n : GoString) (sum : Int) (sub : Sub) :
    Option Int :=
  if u ≠ [] ∧ sub.User_ID ≠ u then some sum
  else if n ≠ [] ∧ sub.Service ≠ n then some sum
  else
    match s, e, Split sub.Start '-' with
    | s0 :: _, e0 :: _, ss0 :: _ =>
      let m1 := (Atoi s0).1
      let m3 := (Atoi e0).1
      let m2 := (Atoi ss0).1
      if m1 ≥ m2 then
        match sub.End with
        | some se =>
          match Split se '-' with
          | ee0 :: _ =>
            let m4 := (Atoi ee0).1
            if m3 ≥ m4 then some (addMonths sum sub.Price m4 m1)
            else some (addMonths sum sub.Price m3 m1)
          | [] => none
        | none => some (addMonths sum sub.Price m3 m1)
      else if m2 ≤ m3 then
        match sub.End with
        | some se =>
          match Split se '-' with
          | ee0 :: _ =>
            let m4 := (Atoi ee0).1
            if m3 ≥ m4 then some (addMonths sum sub.Price m4 m2)
            else some (addMonths sum sub.Price m3 m2)
          | [] => none
        | none => some (addMonths sum sub.Price m3 m2)
      else some sum
    | _, _, _ => none

/-- The loop `for _, sub := range m.db` of `MockDB.Sum`, started with `sum`. -/
def MockDB.sumLoop (s e : List GoString) (u n : GoString) :
    List (GoString × Sub) → Int → Option Int
  | [], sum => some sum
  | kv :: rest, sum =>
    match MockDB.sumBody s e u n sum kv.2 with
    | none => none
    | some sum1 => MockDB.sumLoop s e u n rest sum1

/-- Method `MockDB.Sum`: the total and the (always nil) error, or `none` when
the call panics; dereferencing a nil `filter.End` is such a panic. -/
def MockDB.Sum (m : MockDB) (filter : Sub) : Option (Int × Option GoError) :=
  match filter.End with
  | none => none
  | some fe =>
    match MockDB.sumLoop (Split filter.Start '-') (Split fe '-') filter.User_ID
        filter.Service m.db 0 with
    | none => none
    | some sum => some (sum, none)

/-! ## HTTP handlers (`subs.go`)

A handler is a function of the store behind the variable `db`, of the state of
that store and of the parts of the request it reads; it returns the response
and, when it may write to the store, the state afterwards.  Log output is left
out.  The handler `listHandler` and the method `List` are not embedded. -/

/-- A non-nil error returned by a store, as the handlers tell such values
apart: the package variable `ErrNotFound` itself, the one value for which
`err == ErrNotFound` holds, or any other error value, with its message. -/
inductive StoreErr where
  | errNotFound
  | other (msg : GoError)
  deriving DecidableEq, Repr

/-- The interface `DB` over a store with states `σ`, without `List`.  `Sum`
returns `none` when the call panics. -/
structure DB (σ : Type) where
  Create : σ → Sub → σ × GoString × Option StoreErr
  Read : σ → GoString → Sub × Option StoreErr
  Update : σ → GoString → Sub → σ × Option StoreErr
  Delete : σ → GoString → σ × Option StoreErr
  Sum : σ → Sub → Option (Int × Option StoreErr)

/-- An error of `MockDB` as a value of the interface: each is made by
`fmt.Errorf` at the place of the return, so none is the variable `ErrNotFound`. -/
def mockErr (err : Option GoError) : Option StoreErr :=
  match err with
  | none => none
  | some msg => some (StoreErr.other msg)

/-- The store `MockDB` behind the interface `DB` (`db = &m`); `newId` is the
value that `uuid.NewString()` draws in `Create`. -/
def MockDB.asDB (newId : GoString) : DB MockDB where
  Create m sub := ((m.Create newId sub).1, (m.Create newId sub).2.1, mockErr (m.Create newId sub).2.2)
  Read m id := ((m.Read id).1, mockErr (m.Read id).2)
  Update m id sub := ((m.Update id sub).1, mockErr (m.Update id sub).2)
  Delete m id := ((m.Delete id).1, mockErr (m.Delete id).2)
  Sum m filter :=
    match m.Sum filter with
    | none => none
    | some r => some (r.1, mockErr r.2)

/-- What a handler writes after the status line: the text of `http.Error`, one
of the JSON documents, or nothing. -/
inductive Body where
  | text (msg : String)
  | jsonSubID (id : GoString)
  | jsonSub (sub : Sub)
  | jsonSum (sum : Int)
  | empty
  deriving DecidableEq, Repr

/-- The response of a handler: status code and body. -/
structure Response where
  status : Nat
  body : Body
  deriving DecidableEq, Repr

/-- Function `createHandler`; `body` is what `Decode(&sub)` gives for the
request body, `none` when it returns an error. -/
def createHandler {σ : Type} (uuidV : GoString → Option GoError) (db : DB σ) (st : σ)
    (body : Option Sub) : σ × Response :=
  match body with
  | none => (st, ⟨400, Body.text "invalid request: json error"⟩)
  | some sub =>
    match validateSub uuidV sub with
    | some err => (st, ⟨400, Body.text ("invalid request: " ++ err)⟩)
    | none =>
      match (db.Create st sub).2.2 with
      | some _ => ((db.Create st sub).1, ⟨500, Body.text "server error"⟩)
      | none => ((db.Create st sub).1, ⟨201, Body.jsonSubID (db.Create st sub).2.1⟩)

/-- Function `readHandler`; `id` is the path variable `mux.Vars(r)["id"]`. -/
def readHandler {σ : Type} (uuidV : GoString → Option GoError) (db : DB σ) (st : σ)
    (id : GoString) : Response :=
  match uuidV id with
  | some err => ⟨400, Body.text ("invalid request: " ++ err)⟩
  | none =>
    match (db.Read st id).2 with
    | some StoreErr.errNotFound => ⟨404, Body.text "not found"⟩
    | some (StoreErr.other _) => ⟨500, Body.text "server error"⟩
    | none => ⟨200, Body.jsonSub (db.Read st id).1⟩

/-- Function `updateHandler`; without a write the status of the response is 200. -/
def updateHandler {σ : Type} (uuidV : GoString → Option GoError) (db : DB σ) (st : σ)
    (id : GoString) (body : Option Sub) : σ × Response :=
  match uuidV id with
  | some err => (st, ⟨400, Body.text ("invalid request: " ++ err)⟩)
  | none =>
    match body with
    | none => (st, ⟨400, Body.text "invalid request: json error"⟩)
    | some sub =>
      match validateSub uuidV sub with
      | some err => (st, ⟨400, Body.text ("invalid request: " ++ err)⟩)
      | none =>
        match (db.Update st id sub).2 with
        | some StoreErr.errNotFound => ((db.Update st id sub).1, ⟨404, Body.text "not found"⟩)
        | some (StoreErr.other _) => ((db.Update st id sub).1, ⟨500, Body.text "server error"⟩)
        | none => ((db.Update st id sub).1, ⟨200, Body.empty⟩)

/-- Function `deleteHandler`. -/
def deleteHandler {σ : Type} (uuidV : GoString → Option GoError) (db : DB σ) (st : σ)
    (id : GoString) : σ × Response :=
  match uuidV id with
  | some err => (st, ⟨400, Body.text ("invalid request: " ++ err)⟩)
  | none =>
    match (db.Delete st id).2 with
    | some StoreErr.errNotFound => ((db.Delete st id).1, ⟨404, Body.text "not found"⟩)
    | some (StoreErr.other _) => ((db.Delete st id).1, ⟨500, Body.text "server error"⟩)
    | none => ((db.Delete st id).1, ⟨204, Body.empty⟩)

/-- The filter that `sumHandler` builds from the query parameters, each the
empty string when absent; `End` points to `end_date` and is never nil. -/
def sumFilter (start_date end_date user_id service_name : GoString) : Sub :=
  { ID := [], Service := service_name, Price := 0, User_ID := user_id, Start := start_date,
    End := some end_date }

/-- Function `sumHandler`: the response, or `none` when `db.Sum` panics. -/
def sumHandler {σ : Type} (uuidV : GoString → Option GoError) (db : DB σ) (st : σ)
    (start_date end_date user_id service_name : GoString) : Option Response :=
  match validateFilter uuidV (sumFilter start_date end_date user_id service_name) with
  | some err => some ⟨400, Body.text ("invalid request: " ++ err)⟩
  | none =>
    match db.Sum st (sumFilter start_date end_date user_id service_name) with
    | none => none
    | some (_, some _) => some ⟨500, Body.text "server error"⟩
    | some (sum, none) => some ⟨200, Body.jsonSum sum⟩

/-! ## Definitions used to state the properties -/

/-- The ASCII digit of a number below ten. -/
def digitChar (n : Nat) : Char := Char.ofNat (48 + n)

/-- A byte is an ASCII decimal digit. -/
def isDigitByte (c : Char) : Bool := 48 ≤ c.toNat ∧ c.toNat ≤ 57

/-- The period format `MM-YYYY`: exactly two decimal digits, a `-`, and
exactly four decimal digits. -/
def isPeriodFormat (s : GoString) : Bool :=
  match s with
  | [a, b, sep, c, d, e, g] =>
    isDigitByte a && isDigitByte b && (sep = '-') && isDigitByte c && isDigitByte d &&
      isDigitByte e && isDigitByte g
  | _ => false

/-- A field parses as an integer of the range `lo..hi`: `strconv.Atoi` returns
no error and a value in the range. -/
abbrev parsesIn (field : GoString) (lo hi : Int) : Prop :=
  (Atoi field).2 = false ∧ lo ≤ (Atoi field).1 ∧ (Atoi field).1 ≤ hi

/-- A user id used in the examples. -/
def sampleUser : GoString := "123e4567-e89b-12d3-a456-426614174000".toList

/-- A second user id used in the examples. -/
def otherUser : GoString := "123e4567-e89b-12d3-a456-426614174001".toList

/-- The subscription of `TestValidateSub`: price 400 from 07-2024 to 10-2024. -/
def sampleSub : Sub :=
  ⟨[], "service".toList, 400, sampleUser, "07-2024".toList, some "10-2024".toList⟩

/-- The filter of `TestValidateFilter`: the window 07-2024 to 10-2024. -/
def sampleFilter : Sub := ⟨[], [], 0, [], "07-2024".toList, some "10-2024".toList⟩

/-- The month number of a period as `MockDB.Sum` reads it: `strconv.Atoi` of
the first field of the split, the error dropped. -/
def monthOf (p : GoString) : Int := (Atoi ((Split p '-').getD 0 [])).1

/-- The year number of a period: `strconv.Atoi` of the second field. -/
def yearOf (p : GoString) : Int := (Atoi ((Split p '-').getD 1 [])).1

/-- The absolute month index `year*12 + month` of a period. -/
def absMonth (p : GoString) : Int := yearOf p * 12 + monthOf p

/-- A record matches the user id and the service of a filter, each when set. -/
def matchesFilter (filter sub : Sub) : Bool :=
  (filter.User_ID = [] ∨ sub.User_ID = filter.User_ID) ∧
    (filter.Service = [] ∨ sub.Service = filter.Service)

/-- The lower bound `max(fStart, sStart)` of the overlap, for the month index `idx`. -/
def overlapLower (idx : GoString → Int) (filter sub : Sub) : Int :=
  max (idx filter.Start) (idx sub.Start)

/-- The upper bound of the overlap: `min(fEnd, sEnd)`, and `fEnd` when the
record has no end. -/
def overlapUpper (idx : GoString → Int) (filter sub : Sub) : Int :=
  match sub.End with
  | some se => min (idx (filter.End.getD [])) (idx se)
  | none => idx (filter.End.getD [])

/-- The closed formula for one record: `price × max(0, upper − lower + 1)`. -/
def closedFormAmount (idx : GoString → Int) (filter sub : Sub) : Int :=
  sub.Price * max 0 (overlapUpper idx filter sub - overlapLower idx filter sub + 1)

/-- The closed formula for a store: the sum of `closedFormAmount` over the
records that match the filter. -/
def closedFormSum (idx : GoString → Int) (filter : Sub) (db : List (GoString × Sub)) : Int :=
  (((db.map Prod.snd).filter (matchesFilter filter)).map (closedFormAmount idx filter)).sum

/-- The amount that one pass of the loop of `MockDB.Sum` adds to `sum` for a
record, before reduction to 64 bits (`sumBody_spec` relates it to the code). -/
def recordAmount (filter sub : Sub) : Int :=
  if matchesFilter filter sub = false then 0
  else
    let hi := match sub.End with
      | some se =>
        if monthOf (filter.End.getD []) ≥ monthOf se then monthOf se
        else monthOf (filter.End.getD [])
      | none => monthOf (filter.End.getD [])
    if monthOf filter.Start ≥ monthOf sub.Start then
      sub.Price * (hi - monthOf filter.Start + 1)
    else if monthOf sub.Start ≤ monthOf (filter.End.getD []) then
      sub.Price * (hi - monthOf sub.Start + 1)
    else 0

/-- The store states reachable from the empty store by `Create`, `Update` and
`Delete`. -/
inductive Reachable : MockDB → Prop
  | empty : Reachable ⟨[]⟩
  | create (m : MockDB) (id : GoString) (sub : Sub) :
      Reachable m → Reachable (m.Create id sub).1
  | update (m : MockDB) (id : GoString) (sub : Sub) :
      Reachable m → Reachable (m.Update id sub).1
  | delete (m : MockDB) (id : GoString) : Reachable m → Reachable (m.Delete id).1

/-- A window of three months, 07-2024 to 09-2024, with no user id or service. -/
def summerFilter : Sub := ⟨[], [], 0, [], "07-2024".toList, some "09-2024".toList⟩

/-- A subscription of price 400 running from 01-2024 to 03-2024. -/
def winterSub : Sub :=
  ⟨sampleUser, "service".toList, 400, sampleUser, "01-2024".toList, some "03-2024".toList⟩

/-- A subscription of price 400 running from 07-2023 to 09-2023. -/
def lastYearSub : Sub :=
  ⟨sampleUser, "service".toList, 400, sampleUser, "07-2023".toList, some "09-2023".toList⟩

/-- A subscription of price `2^62` running from 07-2024 to 09-2024. -/
def largeSub : Sub :=
  ⟨sampleUser, "service".toList, 2 ^ 62, sampleUser, "07-2024".toList, some "09-2024".toList⟩

/-- The store of `TestSumHandler`: price 400 from 07-2024, price 700 from
10-2024, both without end, and price 200 for 10-2024 alone. -/
def testStore : MockDB :=
  ⟨[(sampleUser, ⟨sampleUser, "service".toList, 400, sampleUser, "07-2024".toList, none⟩),
    (otherUser, ⟨otherUser, "service_2".toList, 700, otherUser, "10-2024".toList, none⟩),
    ("123e4567-e89b-12d3-a456-426614174002".toList,
      ⟨"123e4567-e89b-12d3-a456-426614174002".toList, "service_3".toList, 200, otherUser,
        "10-2024".toList, some "10-2024".toList⟩)]⟩

/-- A store that counts the calls that write to it: the state is the number of
`Create`, `Update` and `Delete` calls made so far, every call fails, and `Sum`
panics. -/
def countingDB : DB Nat where
  Create n _ := (n + 1, [], some (StoreErr.other "unavailable"))
  Read _ _ := (Sub.zero, some (StoreErr.other "unavailable"))
  Update n _ _ := (n + 1, some (StoreErr.other "unavailable"))
  Delete n _ := (n + 1, some (StoreErr.other "unavailable"))
  Sum _ _ := none

/-- An open-ended record closed at the period `fe`; a closed record as it is. -/
def closeAt (fe : GoString) (kv : GoString × Sub) : GoString × Sub :=
  match kv.2.End with
  | none => (kv.1, { kv.2 with End := some fe })
  | some _ => kv

/-- The month field of a period: the first field of its split on `-`. -/
def monthField (p : GoString) : GoString := (Split p '-').getD 0 []

/-- The period `p` with its year replaced by `y`: the month field of `p`, a
`-` and `y`; with `none` the period is left as it is. -/
def withYear (p : GoString) (y : Option GoString) : GoString :=
  match y with
  | none => p
  | some y => monthField p ++ '-' :: y

/-- The record or filter with the year of its start replaced by `ys` and the
year of its end, when it has one, by `ye`. -/
def Sub.withYears (sub : Sub) (ys ye : Option GoString) : Sub :=
  { sub with Start := withYear sub.Start ys, End := sub.End.map fun e => withYear e ye }

/-- The number of months common to the window `a..b` and the interval `c..d`
of absolute month indices. -/
def commonMonths (a b c d : Int) : Nat := (Finset.Icc a b ∩ Finset.Icc c d).card

/-- The number of months common to the window of the filter and a record, an
open-ended record running to the end of the filter; the months are compared by
their absolute index `year*12 + month`. -/
def sharedMonths (filter sub : Sub) : Nat :=
  commonMonths (absMonth filter.Start) (absMonth (filter.End.getD [])) (absMonth sub.Start)
    (match sub.End with
      | some se => absMonth se
      | none => absMonth (filter.End.getD []))

/-- The sum over the records that match the filter of price × the number of
months common to the record and the window. -/
def monthsTotal (filter : Sub) (db : List (GoString × Sub)) : Int :=
  (((db.map Prod.snd).filter (matchesFilter filter)).map fun sub =>
    sub.Price * (sharedMonths filter sub : Int)).sum

/-- The first record of `TestSumHandler`: price 400 from 07-2024, no end. -/
def openSub : Sub := ⟨sampleUser, "service".toList, 400, sampleUser, "07-2024".toList, none⟩

/-! ## Properties of the validation layer -/

theorem digitVal_digitChar (n : Nat) (h : n < 10) : digitVal (digitChar n) = some n := by
  interval_cases n <;> rfl

theorem digitChar_ne_minus (n : Nat) (h : n < 10) : digitChar n ≠ '-' := by
  interval_cases n <;> decide

theorem digitChar_ne_plus (n : Nat) (h : n < 10) : digitChar n ≠ '+' := by
  interval_cases n <;> decide

theorem validateDate_eq_none_or_err (date : GoString) :
    validateDate date = none ∨ validateDate date = some errInvalidDate := by
  unfold validateDate
  split_ifs
  · exact Or.inr rfl
  · split
    · split_ifs <;> simp
    · exact Or.inr rfl

/-- Claim C4: `validateSub` returns nil exactly when the service is non-empty,
the price is not negative, the user id passes the UUID check, the start passes
`validateDate` and the end is absent or passes `validateDate`; the verdict does
not change with the record's id, nor when start and end are exchanged. -/
theorem validateSub_nil_iff (uuidV : GoString → Option GoError) (sub : Sub) :
    (validateSub uuidV sub = none ↔
      sub.Service ≠ [] ∧ 0 ≤ sub.Price ∧ uuidV sub.User_ID = none ∧
        validateDate sub.Start = none ∧
        (sub.End = none ∨ ∃ e, sub.End = some e ∧ validateDate e = none)) ∧
    (∀ id, validateSub uuidV { sub with ID := id } = validateSub uuidV sub) ∧
    (∀ e, sub.End = some e →
      (validateSub uuidV { sub with Start := e, End := some sub.Start } = none ↔
        validateSub uuidV sub = none)) := by
  have key : ∀ t : Sub, validateSub uuidV t = none ↔
      t.Service ≠ [] ∧ 0 ≤ t.Price ∧ uuidV t.User_ID = none ∧
        validateDate t.Start = none ∧
        (t.End = none ∨ ∃ e, t.End = some e ∧ validateDate e = none) := by
    intro t
    unfold validateSub
    by_cases h1 : t.Service = []
    · simp [h1]
    by_cases h2 : t.Price < 0
    · simp [h1, h2]
    have h2' : 0 ≤ t.Price := not_lt.mp h2
    cases h3 : uuidV t.User_ID with
    | some err => simp [h1, h2]
    | none =>
      cases h4 : validateDate t.Start with
      | some err => simp [h1, h2]
      | none =>
        cases h5 : t.End with
        | none => simp [h1, h2, h2']
        | some e =>
          cases h6 : validateDate e with
          | some err => simp [h1, h2, h6]
          | none => simp [h1, h2, h2', h6]
  refine ⟨key sub, fun id => rfl, ?_⟩
  intro e he
  rw [key, key]
  simp only [he]
  constructor
  · rintro ⟨a, b, c, d, h⟩
    rcases h with h | ⟨x, hx, hv⟩
    · cases h
    · cases hx
      exact ⟨a, b, c, hv, Or.inr ⟨e, rfl, d⟩⟩
  · rintro ⟨a, b, c, d, h⟩
    rcases h with h | ⟨x, hx, hv⟩
    · cases h
    · cases hx
      exact ⟨a, b, c, hv, Or.inr ⟨_, rfl, d⟩⟩

/-- The subscription of `TestValidateSub` is accepted, by the characterisation
of claim C4. -/
theorem validateSub_nil_iff_witness : validateSub uuidValidate sampleSub = none :=
  (validateSub_nil_iff uuidValidate sampleSub).1.2
    ⟨by decide, by decide, by decide, by decide, Or.inr ⟨_, rfl, by decide⟩⟩

theorem validateFilter_nil_fields (uuidV : GoString → Option GoError) (filter : Sub) :
    validateFilter uuidV filter = none ↔
      (filter.User_ID = [] ∨ uuidV filter.User_ID = none) ∧
        validateDate filter.Start = none ∧
        ∃ e, filter.End = some e ∧ validateDate e = none := by
  unfold validateFilter
  by_cases h1 : filter.User_ID = []
  · simp only [h1, ne_eq, not_true_eq_false, if_false, true_or, true_and]
    cases h4 : validateDate filter.Start with
    | some err => simp
    | none =>
      cases h5 : filter.End with
      | none => simp
      | some e =>
        cases h6 : validateDate e with
        | some err => simp [h6]
        | none => simp [h6]
  · simp only [h1, ne_eq, not_false_eq_true, if_true, false_or]
    cases h3 : uuidV filter.User_ID with
    | some err => simp
    | none =>
      cases h4 : validateDate filter.Start with
      | some err => simp
      | none =>
        cases h5 : filter.End with
        | none => simp
        | some e =>
          cases h6 : validateDate e with
          | some err => simp [h6]
          | none => simp [h6]

/-- Claim C5: `validateFilter` returns nil exactly when the user id is empty or
passes the UUID check, the start passes `validateDate`, the end is present and
the end passes `validateDate`; a filter with no end is rejected, and the
verdict does not change with the service, the price or the id. -/
theorem validateFilter_nil_iff (uuidV : GoString → Option GoError) (filter : Sub) :
    (validateFilter uuidV filter = none ↔
      (filter.User_ID = [] ∨ uuidV filter.User_ID = none) ∧
        validateDate filter.Start = none ∧
        ∃ e, filter.End = some e ∧ validateDate e = none) ∧
    (filter.End = none → validateFilter uuidV filter ≠ none) ∧
    (∀ service price id,
      validateFilter uuidV { filter with Service := service, Price := price, ID := id } =
        validateFilter uuidV filter) := by
  refine ⟨validateFilter_nil_fields uuidV filter, ?_, fun _ _ _ => rfl⟩
  intro hEnd hnil
  obtain ⟨_, _, e, he, _⟩ := (validateFilter_nil_fields uuidV filter).mp hnil
  rw [hEnd] at he
  cases he

/-- The filter of `TestValidateFilter` is accepted and the same filter without
an end is rejected, by claim C5. -/
theorem validateFilter_nil_iff_witness :
    validateFilter uuidValidate sampleFilter = none ∧
      validateFilter uuidValidate { sampleFilter with End := none } ≠ none :=
  ⟨(validateFilter_nil_iff uuidValidate sampleFilter).1.2
      ⟨Or.inl rfl, by decide, _, rfl, by decide⟩,
    (validateFilter_nil_iff uuidValidate { sampleFilter with End := none }).2.1 rfl⟩

/-- Claim C6: `validateDate` returns the error "invalid date string" for every
string that does not split on `-` into exactly two fields, or whose first field
does not parse as an integer of 1..12, or whose second field does not parse as
an integer of 1970..9999. -/
theorem validateDate_rejects (date : GoString)
    (h : (Split date '-').length ≠ 2 ∨
      ¬ parsesIn ((Split date '-').getD 0 []) 1 12 ∨
      ¬ parsesIn ((Split date '-').getD 1 []) 1970 9999) :
    validateDate date = some errInvalidDate := by
  unfold validateDate
  split_ifs with h0
  · rfl
  · split
    · rename_i f0 f1 hS
      rw [hS] at h
      simp only [List.length_cons, List.length_nil, List.getD_cons_zero, List.getD_cons_succ,
        parsesIn] at h
      split_ifs with h1 h2
      · rfl
      · rfl
      · exfalso
        rcases h with h | h | h
        · exact h rfl
        · apply h
          refine ⟨?_, ?_, ?_⟩
          · cases hb : (Atoi f0).2
            · rfl
            · exact absurd (Or.inr (Or.inr hb)) h1
          · by_contra hc
            exact h1 (Or.inl (not_le.mp hc))
          · by_contra hc
            exact h1 (Or.inr (Or.inl (not_le.mp hc)))
        · apply h
          refine ⟨?_, ?_, ?_⟩
          · cases hb : (Atoi f1).2
            · rfl
            · exact absurd (Or.inr (Or.inr hb)) h2
          · by_contra hc
            exact h2 (Or.inl (not_le.mp hc))
          · by_contra hc
            exact h2 (Or.inr (Or.inl (not_le.mp hc)))
    · rfl

/-- The strings "13-2024" (month out of range), "00-1969" (month and year out
of range) and "07/2024" (no `-`) are rejected, by claim C6. -/
theorem validateDate_rejects_witness :
    validateDate "13-2024".toList = some errInvalidDate ∧
      validateDate "00-1969".toList = some errInvalidDate ∧
      validateDate "07/2024".toList = some errInvalidDate :=
  ⟨validateDate_rejects "13-2024".toList (by decide),
    validateDate_rejects "00-1969".toList (by decide),
    validateDate_rejects "07/2024".toList (by decide)⟩

/-- Claim C7, at the inputs where the code departs from it: `validateDate`
returns nil for "+7-2024" and for "7-02024", neither of which has the period
format of two digits, `-`, four digits. -/
theorem validateDate_nil_non_period :
    validateDate "+7-2024".toList = none ∧ isPeriodFormat "+7-2024".toList = false ∧
      validateDate "7-02024".toList = none ∧ isPeriodFormat "7-02024".toList = false := by
  decide

/-- Claim C8: `validateDate` returns nil for every string made of a two-digit
month 01..12, a `-` and a four-digit year 1970..9999; the digits are given by
their values `a b` and `c d e g`. -/
theorem validateDate_accepts (a b c d e g : Nat)
    (ha : a < 10) (hb : b < 10) (hc : c < 10) (hd : d < 10) (he : e < 10) (hg : g < 10)
    (hmonth : 1 ≤ 10 * a + b ∧ 10 * a + b ≤ 12)
    (hyear : 1970 ≤ 1000 * c + 100 * d + 10 * e + g ∧ 1000 * c + 100 * d + 10 * e + g ≤ 9999) :
    validateDate [digitChar a, digitChar b, '-', digitChar c, digitChar d, digitChar e,
      digitChar g] = none := by
  have hS : Split [digitChar a, digitChar b, '-', digitChar c, digitChar d, digitChar e,
      digitChar g] '-' =
      [[digitChar a, digitChar b], [digitChar c, digitChar d, digitChar e, digitChar g]] := by
    simp [Split, splitGo, digitChar_ne_minus, ha, hb, hc, hd, he, hg]
  have hM : Atoi [digitChar a, digitChar b] = (((10 * a + b : Nat) : Int), false) := by
    simp [Atoi, atoiLoop, digitVal_digitChar, digitChar_ne_minus, digitChar_ne_plus, ha, hb]
    ring
  have hY : Atoi [digitChar c, digitChar d, digitChar e, digitChar g] =
      (((1000 * c + 100 * d + 10 * e + g : Nat) : Int), false) := by
    simp [Atoi, atoiLoop, digitVal_digitChar, digitChar_ne_minus, digitChar_ne_plus, hc, hd,
      he, hg]
    ring
  unfold validateDate
  rw [hS]
  simp only [hM, hY]
  have h1 : ¬ ((((10 * a + b : Nat) : Int) < 1) ∨ (((10 * a + b : Nat) : Int) > 12) ∨
      false = true) := by
    push_neg
    refine ⟨?_, ?_, by simp⟩ <;> omega
  have h2 : ¬ ((((1000 * c + 100 * d + 10 * e + g : Nat) : Int) < 1970) ∨
      (((1000 * c + 100 * d + 10 * e + g : Nat) : Int) > 9999) ∨ false = true) := by
    push_neg
    refine ⟨?_, ?_, by simp⟩ <;> omega
  rw [if_neg (by simp), if_neg h1, if_neg h2]

/-- The strings "07-2024" and "12-9999" are accepted, by claim C8. -/
theorem validateDate_accepts_witness :
    validateDate "07-2024".toList = none ∧ validateDate "12-9999".toList = none :=
  ⟨validateDate_accepts 0 7 2 0 2 4 (by decide) (by decide) (by decide) (by decide)
      (by decide) (by decide) (by decide) (by decide),
    validateDate_accepts 1 2 9 9 9 9 (by decide) (by decide) (by decide) (by decide)
      (by decide) (by decide) (by decide) (by decide)⟩

/-! ## Properties of the in-memory store -/

theorem mapGet_mapSet_same (db : List (GoString × Sub)) (id : GoString) (sub : Sub) :
    mapGet (mapSet db id sub) id = some sub := by
  induction db with
  | nil => simp [mapSet, mapGet]
  | cons kv rest ih =>
    obtain ⟨k, v⟩ := kv
    by_cases h : k = id
    · simp [mapSet, mapGet, h]
    · simp [mapSet, mapGet, h, ih]

theorem mapGet_mapSet_other (db : List (GoString × Sub)) (id id1 : GoString) (sub : Sub)
    (hne : id1 ≠ id) : mapGet (mapSet db id sub) id1 = mapGet db id1 := by
  induction db with
  | nil => simp [mapSet, mapGet, Ne.symm hne]
  | cons kv rest ih =>
    obtain ⟨k, v⟩ := kv
    by_cases h : k = id
    · subst h
      simp [mapSet, mapGet, Ne.symm hne]
    · by_cases h1 : k = id1
      · subst h1
        simp [mapSet, mapGet, h]
      · simp [mapSet, mapGet, h, h1, ih]

/-- Claim C9: after `Create` of `s`, which returns the drawn id and no error,
`Read` of that id succeeds and returns `s` with its ID set to the id and every
other field as submitted; reads of all other ids give what they gave before. -/
theorem create_read_roundtrip (m : MockDB) (id : GoString) (s : Sub) :
    (m.Create id s).2.1 = id ∧ (m.Create id s).2.2 = none ∧
      ((m.Create id s).1.Read id).2 = none ∧
      ((m.Create id s).1.Read id).1.ID = id ∧
      ((m.Create id s).1.Read id).1.Service = s.Service ∧
      ((m.Create id s).1.Read id).1.Price = s.Price ∧
      ((m.Create id s).1.Read id).1.User_ID = s.User_ID ∧
      ((m.Create id s).1.Read id).1.Start = s.Start ∧
      ((m.Create id s).1.Read id).1.End = s.End ∧
      (∀ id1, id1 ≠ id → (m.Create id s).1.Read id1 = m.Read id1) := by
  have hget : ((m.Create id s).1.Read id) = ({ s with ID := id }, none) := by
    simp [MockDB.Create, MockDB.Read, mapGet_mapSet_same]
  refine ⟨rfl, rfl, ?_, ?_, ?_, ?_, ?_, ?_, ?_, ?_⟩
  · rw [hget]
  · rw [hget]
  · rw [hget]
  · rw [hget]
  · rw [hget]
  · rw [hget]
  · rw [hget]
  · intro id1 hne
    simp [MockDB.Create, MockDB.Read, mapGet_mapSet_other _ _ _ _ hne]

/-- Claim C10, at an input where the code departs from it: in the store reached
from the empty one by `Create` with id `sampleUser` and then a successful
`Update` of that id with a body whose ID is empty, `Read` of the id returns a
record whose ID is empty, not the id. -/
theorem update_overwrites_id :
    Reachable ((MockDB.Create ⟨[]⟩ sampleUser sampleSub).1.Update sampleUser sampleSub).1 ∧
      ((MockDB.Create ⟨[]⟩ sampleUser sampleSub).1.Update sampleUser sampleSub).2 = none ∧
      (((MockDB.Create ⟨[]⟩ sampleUser sampleSub).1.Update sampleUser sampleSub).1.Read
        sampleUser).2 = none ∧
      (((MockDB.Create ⟨[]⟩ sampleUser sampleSub).1.Update sampleUser sampleSub).1.Read
        sampleUser).1.ID = [] ∧
      sampleUser ≠ [] :=
  ⟨Reachable.update _ _ _ (Reachable.create _ _ _ Reachable.empty), by decide, by decide,
    by decide, by decide⟩

/-! ## Properties of `MockDB.Sum` -/

theorem wrapInt_modEq (x : Int) : wrapInt x ≡ x [ZMOD 2 ^ 64] := by
  unfold wrapInt
  have h : (x + 2 ^ 63) % 2 ^ 64 ≡ x + 2 ^ 63 [ZMOD 2 ^ 64] := Int.mod_modEq _ _
  have h2 := h.sub_right (2 ^ 63)
  simpa using h2

theorem wrapInt_congr {a b : Int} (h : a ≡ b [ZMOD 2 ^ 64]) : wrapInt a = wrapInt b := by
  unfold wrapInt
  have h2 := h.add_right (2 ^ 63)
  unfold Int.ModEq at h2
  rw [h2]

theorem wrapInt_wrapInt (x : Int) : wrapInt (wrapInt x) = wrapInt x :=
  wrapInt_congr (wrapInt_modEq x)

theorem wrapInt_of_range (x : Int) (h1 : -(2 ^ 63) ≤ x) (h2 : x < 2 ^ 63) : wrapInt x = x := by
  unfold wrapInt
  norm_num at h1 h2 ⊢
  omega

theorem addMonths_modEq (sum price hi lo : Int) :
    addMonths sum price hi lo ≡ sum + price * (hi - lo + 1) [ZMOD 2 ^ 64] := by
  unfold addMonths
  refine (wrapInt_modEq _).trans (Int.ModEq.add_left _ ?_)
  refine (wrapInt_modEq _).trans (Int.ModEq.mul_left _ ?_)
  exact (wrapInt_modEq _).trans ((wrapInt_modEq _).add_right 1)

theorem addMonths_wrapped (sum price hi lo : Int) :
    wrapInt (addMonths sum price hi lo) = addMonths sum price hi lo := by
  unfold addMonths
  exact wrapInt_wrapInt _

theorem sumBody_spec (filter : Sub) (fe : GoString) (hE : filter.End = some fe) (sum : Int)
    (sub : Sub) :
    ∃ r, MockDB.sumBody (Split filter.Start '-') (Split fe '-') filter.User_ID filter.Service
        sum sub = some r ∧
      r ≡ sum + recordAmount filter sub [ZMOD 2 ^ 64] ∧ (wrapInt sum = sum → wrapInt r = r) := by
  unfold MockDB.sumBody recordAmount
  by_cases hu : filter.User_ID ≠ [] ∧ sub.User_ID ≠ filter.User_ID
  · have hm : matchesFilter filter sub = false := by
      simp [matchesFilter, hu.1, hu.2]
    rw [if_pos hu, if_pos hm]
    exact ⟨sum, rfl, by simp [Int.ModEq], fun h => h⟩
  by_cases hn : filter.Service ≠ [] ∧ sub.Service ≠ filter.Service
  · have hm : matchesFilter filter sub = false := by
      simp [matchesFilter, hn.1, hn.2]
    rw [if_neg hu, if_pos hn, if_pos hm]
    exact ⟨sum, rfl, by simp [Int.ModEq], fun h => h⟩
  have hm : ¬ matchesFilter filter sub = false := by
    simp only [matchesFilter, ne_eq, not_and_or, not_not] at hu hn ⊢
    simp [hu, hn]
  rw [if_neg hu, if_neg hn, if_neg hm]
  simp only [Split, monthOf, hE, Option.getD_some, List.getD_cons_zero]
  split_ifs with h1 h2
  · cases hEnd : sub.End with
    | none => exact ⟨_, rfl, addMonths_modEq _ _ _ _, fun _ => addMonths_wrapped _ _ _ _⟩
    | some se =>
      simp only []
      split_ifs with h3
      · exact ⟨_, rfl, addMonths_modEq _ _ _ _, fun _ => addMonths_wrapped _ _ _ _⟩
      · exact ⟨_, rfl, addMonths_modEq _ _ _ _, fun _ => addMonths_wrapped _ _ _ _⟩
  · cases hEnd : sub.End with
    | none => exact ⟨_, rfl, addMonths_modEq _ _ _ _, fun _ => addMonths_wrapped _ _ _ _⟩
    | some se =>
      simp only []
      split_ifs with h3
      · exact ⟨_, rfl, addMonths_modEq _ _ _ _, fun _ => addMonths_wrapped _ _ _ _⟩
      · exact ⟨_, rfl, addMonths_modEq _ _ _ _, fun _ => addMonths_wrapped _ _ _ _⟩
  · exact ⟨sum, rfl, by simp [Int.ModEq], fun h => h⟩

theorem sumLoop_spec (filter : Sub) (fe : GoString) (hE : filter.End = some fe)
    (db : List (GoString × Sub)) :
    ∀ sum : Int, wrapInt sum = sum →
      ∃ r, MockDB.sumLoop (Split filter.Start '-') (Split fe '-') filter.User_ID
          filter.Service db sum = some r ∧
        r ≡ sum + (db.map fun kv => recordAmount filter kv.2).sum [ZMOD 2 ^ 64] ∧
        wrapInt r = r := by
  induction db with
  | nil =>
    intro sum hsum
    exact ⟨sum, rfl, by simp [Int.ModEq], hsum⟩
  | cons kv rest ih =>
    intro sum hsum
    obtain ⟨r1, hr1, hmod1, hw1⟩ := sumBody_spec filter fe hE sum kv.2
    obtain ⟨r, hr, hmod, hw⟩ := ih r1 (hw1 hsum)
    refine ⟨r, ?_, ?_, hw⟩
    · simp only [MockDB.sumLoop, hr1, hr]
    · refine hmod.trans ?_
      simp only [List.map_cons, List.sum_cons]
      have := hmod1.add_right ((rest.map fun kv => recordAmount filter kv.2).sum)
      simpa [add_assoc] using this

/-- With an end in the filter, `MockDB.Sum` returns the 64-bit reduction of the
sum of the amounts of the records, and a nil error. -/
theorem sum_eq_recordAmounts (m : MockDB) (filter : Sub) (fe : GoString)
    (hE : filter.End = some fe) :
    m.Sum filter = some (wrapInt ((m.db.map fun kv => recordAmount filter kv.2).sum), none) := by
  obtain ⟨r, hr, hmod, hw⟩ := sumLoop_spec filter fe hE m.db 0 (by decide)
  unfold MockDB.Sum
  simp only [hE, hr]
  rw [← hw]
  congr 2
  apply wrapInt_congr
  simpa using hmod

/-- The result of `MockDB.Sum` does not depend on the order in which the
entries of the map are visited. -/
theorem sum_perm (db1 db2 : List (GoString × Sub)) (filter : Sub) (h : db1.Perm db2) :
    MockDB.Sum ⟨db1⟩ filter = MockDB.Sum ⟨db2⟩ filter := by
  cases hE : filter.End with
  | none => simp [MockDB.Sum, hE]
  | some fe =>
    rw [sum_eq_recordAmounts ⟨db1⟩ filter fe hE, sum_eq_recordAmounts ⟨db2⟩ filter fe hE]
    exact congrArg (fun t => some (wrapInt t, none))
      ((h.map fun kv => recordAmount filter kv.2).sum_eq)

theorem recordAmount_eq_closedForm (filter sub : Sub) (hm : matchesFilter filter sub = true)
    (hgap : overlapLower monthOf filter sub ≤ overlapUpper monthOf filter sub + 1 ∨
      (monthOf filter.Start < monthOf sub.Start ∧
        monthOf (filter.End.getD []) < monthOf sub.Start)) :
    recordAmount filter sub = closedFormAmount monthOf filter sub := by
  unfold recordAmount closedFormAmount
  unfold overlapLower overlapUpper at *
  rw [if_neg (by simp [hm])]
  cases hEnd : sub.End with
  | none =>
    simp only [hEnd] at hgap ⊢
    split_ifs with h1 h2
    · congr 1; omega
    · congr 1; omega
    · have : max 0 (monthOf (filter.End.getD []) -
          max (monthOf filter.Start) (monthOf sub.Start) + 1) = 0 := by omega
      rw [this, mul_zero]
  | some se =>
    simp only [hEnd] at hgap ⊢
    split_ifs with h1 h2 h3 h4
    · congr 1; omega
    · congr 1; omega
    · congr 1; omega
    · congr 1; omega
    · have : max 0 (min (monthOf (filter.End.getD [])) (monthOf se) -
          max (monthOf filter.Start) (monthOf sub.Start) + 1) = 0 := by omega
      rw [this, mul_zero]

theorem recordAmounts_eq_closedFormSum (filter : Sub) (db : List (GoString × Sub))
    (hgap : ∀ kv ∈ db, matchesFilter filter kv.2 = true →
      overlapLower monthOf filter kv.2 ≤ overlapUpper monthOf filter kv.2 + 1 ∨
        (monthOf filter.Start < monthOf kv.2.Start ∧
          monthOf (filter.End.getD []) < monthOf kv.2.Start)) :
    (db.map fun kv => recordAmount filter kv.2).sum = closedFormSum monthOf filter db := by
  induction db with
  | nil => rfl
  | cons kv rest ih =>
    have ih1 := ih (fun x hx => hgap x (List.mem_cons_of_mem _ hx))
    unfold closedFormSum at ih1 ⊢
    simp only [List.map_cons, List.sum_cons, ih1]
    by_cases hm : matchesFilter filter kv.2 = true
    · rw [List.filter_cons_of_pos hm, List.map_cons, List.sum_cons,
        recordAmount_eq_closedForm filter kv.2 hm (hgap kv (List.mem_cons_self _ _) hm)]
    · rw [List.filter_cons_of_neg hm]
      have h0 : recordAmount filter kv.2 = 0 := by
        unfold recordAmount
        rw [if_pos (by simpa using hm)]
      rw [h0, zero_add]

/-- Claim C1, as stated, fails at two inputs.  For the window 07-2024 to 09-2024
and one record of price 400 running from 07-2023 to 09-2023, `MockDB.Sum`
returns 1200 while the closed formula over `year*12 + month` gives 0.  For the
same window and one record of price `2^62` over the same three months,
`MockDB.Sum` returns `-2^62` while the formula gives `3 * 2^62`. -/
theorem sum_ne_closedForm_absMonth :
    (validateFilter uuidValidate summerFilter = none ∧
      validateSub uuidValidate lastYearSub = none ∧
      MockDB.Sum ⟨[(sampleUser, lastYearSub)]⟩ summerFilter = some (1200, none) ∧
      closedFormSum absMonth summerFilter [(sampleUser, lastYearSub)] = 0) ∧
    (validateSub uuidValidate largeSub = none ∧
      MockDB.Sum ⟨[(sampleUser, largeSub)]⟩ summerFilter = some (-(2 ^ 62), none) ∧
      closedFormSum absMonth summerFilter [(sampleUser, largeSub)] = 3 * 2 ^ 62) := by
  decide

/-- Claim C1, amended: for a filter that passes `validateFilter` and a store
whose records pass `validateSub`, `MockDB.Sum` returns, reduced to 64 bits, the
sum over the matching records of `price × max(0, upper − lower + 1)` with
`lower = max(fStart, sStart)`, `upper = min(fEnd, sEnd)` (`fEnd` without an
end), the indices being the month numbers alone, provided each matching record
has `lower ≤ upper + 1` or starts after both months of the filter. -/
theorem sum_eq_closedForm_months (uuidV : GoString → Option GoError) (filter : Sub)
    (m : MockDB) (hf : validateFilter uuidV filter = none)
    (_hs : ∀ kv ∈ m.db, validateSub uuidV kv.2 = none)
    (hgap : ∀ kv ∈ m.db, matchesFilter filter kv.2 = true →
      overlapLower monthOf filter kv.2 ≤ overlapUpper monthOf filter kv.2 + 1 ∨
        (monthOf filter.Start < monthOf kv.2.Start ∧
          monthOf (filter.End.getD []) < monthOf kv.2.Start)) :
    m.Sum filter = some (wrapInt (closedFormSum monthOf filter m.db), none) := by
  obtain ⟨_, _, fe, hE, _⟩ := (validateFilter_nil_fields uuidV filter).mp hf
  rw [sum_eq_recordAmounts m filter fe hE, recordAmounts_eq_closedFormSum filter m.db hgap]

/-- The store of `TestSumHandler` with the window 07-2024 to 10-2024 meets the
conditions of the amended claim C1, and the closed formula gives 2500. -/
theorem sum_eq_closedForm_months_witness :
    MockDB.Sum testStore sampleFilter =
        some (wrapInt (closedFormSum monthOf sampleFilter testStore.db), none) ∧
      wrapInt (closedFormSum monthOf sampleFilter testStore.db) = 2500 :=
  ⟨sum_eq_closedForm_months uuidValidate sampleFilter testStore (by decide) (by decide)
      (by decide), by decide⟩

/-- Claim C2, as stated, fails: the window 07-2024 to 09-2024 and the record of
price 400 running from 07-2023 to 09-2023 both pass validation, the record
starts before it ends and lies wholly before the window, and `MockDB.Sum` over
the store holding it alone returns 1200. -/
theorem sum_nonzero_without_overlap :
    validateFilter uuidValidate summerFilter = none ∧
      validateSub uuidValidate lastYearSub = none ∧
      absMonth lastYearSub.Start ≤ absMonth (lastYearSub.End.getD []) ∧
      absMonth (lastYearSub.End.getD []) < absMonth summerFilter.Start ∧
      MockDB.Sum ⟨[(sampleUser, lastYearSub)]⟩ summerFilter = some (1200, none) := by
  decide

/-- Claim C2, amended: for a filter that passes `validateFilter` and records
that pass `validateSub` and whose start month number is later than both the
start and the end month number of the filter, each pass of the loop of
`MockDB.Sum` leaves `sum` as it was, and `MockDB.Sum` over a store of such
records returns 0. -/
theorem sum_zero_of_later_records (uuidV : GoString → Option GoError) (filter : Sub)
    (m : MockDB) (hf : validateFilter uuidV filter = none)
    (_hs : ∀ kv ∈ m.db, validateSub uuidV kv.2 = none)
    (hlate : ∀ kv ∈ m.db, monthOf filter.Start < monthOf kv.2.Start ∧
      monthOf (filter.End.getD []) < monthOf kv.2.Start) :
    (∀ kv ∈ m.db, ∀ sum, MockDB.sumBody (Split filter.Start '-')
        (Split (filter.End.getD []) '-') filter.User_ID filter.Service sum kv.2 = some sum) ∧
      m.Sum filter = some (0, none) := by
  obtain ⟨_, _, fe, hE, _⟩ := (validateFilter_nil_fields uuidV filter).mp hf
  have hbody : ∀ kv ∈ m.db, ∀ sum, MockDB.sumBody (Split filter.Start '-')
      (Split fe '-') filter.User_ID filter.Service sum kv.2 = some sum := by
    intro kv hkv sum
    obtain ⟨h1, h2⟩ := hlate kv hkv
    simp only [monthOf, hE, Option.getD_some, Split, List.getD_cons_zero] at h1 h2
    unfold MockDB.sumBody
    simp only [Split]
    split_ifs <;> first | rfl | omega
  refine ⟨fun kv hkv sum => by simp only [hE, Option.getD_some]; exact hbody kv hkv sum, ?_⟩
  have hloop : ∀ (db : List (GoString × Sub)),
      (∀ kv ∈ db, ∀ sum, MockDB.sumBody (Split filter.Start '-')
        (Split fe '-') filter.User_ID filter.Service sum kv.2 = some sum) →
      ∀ sum, MockDB.sumLoop (Split filter.Start '-') (Split fe '-') filter.User_ID
        filter.Service db sum = some sum := by
    intro db
    induction db with
    | nil => intro _ sum; rfl
    | cons kv rest ih =>
      intro h sum
      simp only [MockDB.sumLoop, h kv (List.mem_cons_self _ _) sum]
      exact ih (fun x hx => h x (List.mem_cons_of_mem _ hx)) sum
  unfold MockDB.Sum
  simp only [hE, hloop m.db hbody 0]

/-- The window 07-2024 to 09-2024 and the two records of `TestSumHandler` that
start in 10-2024 meet the conditions of the amended claim C2. -/
theorem sum_zero_of_later_records_witness :
    MockDB.Sum ⟨testStore.db.tail⟩ summerFilter = some (0, none) :=
  (sum_zero_of_later_records uuidValidate summerFilter ⟨testStore.db.tail⟩ (by decide)
    (by decide) (by decide)).2

/-- Claim C3, at an input where the code departs from it: over the store that
holds the one record of price 400 running from 01-2024 to 03-2024, `MockDB.Sum`
returns -1200 for the window 07-2024 to 09-2024, and returns 0, which is more,
once a user id or a service that the record does not have is added to the
filter. -/
theorem sum_grows_with_filter :
    validateSub uuidValidate winterSub = none ∧
      validateFilter uuidValidate summerFilter = none ∧
      validateFilter uuidValidate { summerFilter with User_ID := otherUser } = none ∧
      validateFilter uuidValidate { summerFilter with Service := "other".toList } = none ∧
      MockDB.Sum ⟨[(sampleUser, winterSub)]⟩ summerFilter = some (-1200, none) ∧
      MockDB.Sum ⟨[(sampleUser, winterSub)]⟩ { summerFilter with User_ID := otherUser } =
        some (0, none) ∧
      MockDB.Sum ⟨[(sampleUser, winterSub)]⟩ { summerFilter with Service := "other".toList } =
        some (0, none) :=
  ⟨by decide, by decide, by decide, by decide, by decide, by decide, by decide⟩

/-! ## Properties of the handlers -/

/-- Claim C11, as stated, fails: with the empty in-memory store behind the
handlers and the syntactically valid id `sampleUser`, which the store does not
hold, the read, the update with a valid body and the delete are each answered
with status 500. -/
theorem absent_id_status_500 :
    uuidValidate sampleUser = none ∧ mapGet (MockDB.mk []).db sampleUser = none ∧
      validateSub uuidValidate sampleSub = none ∧
      (readHandler uuidValidate (MockDB.asDB otherUser) ⟨[]⟩ sampleUser).status = 500 ∧
      (updateHandler uuidValidate (MockDB.asDB otherUser) ⟨[]⟩ sampleUser
        (some sampleSub)).2.status = 500 ∧
      (deleteHandler uuidValidate (MockDB.asDB otherUser) ⟨[]⟩ sampleUser).2.status = 500 :=
  ⟨by decide, by decide, by decide, by decide, by decide, by decide⟩

/-- Claim C11, amended: with the in-memory store behind the handlers, a read,
an update with a valid body and a delete of a syntactically valid id that the
store does not hold are answered with status 500 and the text "server error",
and leave the store as it was; over any store, a handler answers 404 exactly
when the id is syntactically valid, the body (for an update) is valid and the
store returns the value `ErrNotFound` itself. -/
theorem absent_id_server_error (uuidV : GoString → Option GoError) (newId : GoString)
    (m : MockDB) (id : GoString) (hid : uuidV id = none) (habs : mapGet m.db id = none) :
    readHandler uuidV (MockDB.asDB newId) m id = ⟨500, Body.text "server error"⟩ ∧
    (∀ sub, validateSub uuidV sub = none →
      updateHandler uuidV (MockDB.asDB newId) m id (some sub) =
        (m, ⟨500, Body.text "server error"⟩)) ∧
    deleteHandler uuidV (MockDB.asDB newId) m id = (m, ⟨500, Body.text "server error"⟩) ∧
    (∀ (σ : Type) (db : DB σ) (st : σ) (id1 : GoString),
      ((readHandler uuidV db st id1).status = 404 ↔
        uuidV id1 = none ∧ (db.Read st id1).2 = some StoreErr.errNotFound) ∧
      (∀ sub, (updateHandler uuidV db st id1 (some sub)).2.status = 404 ↔
        uuidV id1 = none ∧ validateSub uuidV sub = none ∧
          (db.Update st id1 sub).2 = some StoreErr.errNotFound) ∧
      ((deleteHandler uuidV db st id1).2.status = 404 ↔
        uuidV id1 = none ∧ (db.Delete st id1).2 = some StoreErr.errNotFound)) := by
  refine ⟨?_, ?_, ?_, ?_⟩
  · simp [readHandler, hid, MockDB.asDB, MockDB.Read, habs, mockErr, errMockNotFound]
  · intro sub hsub
    simp [updateHandler, hid, hsub, MockDB.asDB, MockDB.Update, habs, mockErr, errMockNotFound]
  · simp [deleteHandler, hid, MockDB.asDB, MockDB.Delete, habs, mockErr, errMockNotFound]
  · intro σ db st id1
    refine ⟨?_, ?_, ?_⟩
    · unfold readHandler
      cases h1 : uuidV id1 with
      | some err => simp
      | none =>
        rcases h2 : (db.Read st id1).2 with _ | e
        · simp
        · cases e <;> simp
    · intro sub
      unfold updateHandler
      cases h1 : uuidV id1 with
      | some err => simp
      | none =>
        cases h3 : validateSub uuidV sub with
        | some err => simp [h3]
        | none =>
          rcases h2 : (db.Update st id1 sub).2 with _ | e
          · simp [h3, h2]
          · cases e <;> simp [h3, h2]
    · unfold deleteHandler
      cases h1 : uuidV id1 with
      | some err => simp
      | none =>
        rcases h2 : (db.Delete st id1).2 with _ | e
        · simp
        · cases e <;> simp

/-- The empty store and the id `sampleUser` meet the conditions of the amended
claim C11: the read is answered with 500. -/
theorem absent_id_server_error_witness :
    readHandler uuidValidate (MockDB.asDB otherUser) ⟨[]⟩ sampleUser =
      ⟨500, Body.text "server error"⟩ :=
  (absent_id_server_error uuidValidate otherUser ⟨[]⟩ sampleUser (by decide) (by decide)).1

/-- Claim C12: for a decoded body that `validateSub` rejects, `createHandler`
and `updateHandler` answer 400 with a text that does not depend on the store,
and return the state of the store as it was; for a query whose filter
`validateFilter` rejects, `sumHandler` answers 400 likewise.  This holds for
every store behind the interface, also one that changes state or panics on
every call, so no call of `Create`, `Update` or `Sum` is made. -/
theorem invalid_input_not_stored (uuidV : GoString → Option GoError) :
    (∀ sub, validateSub uuidV sub ≠ none →
      (∃ msg, ∀ (σ : Type) (db : DB σ) (st : σ),
        createHandler uuidV db st (some sub) = (st, ⟨400, Body.text msg⟩)) ∧
      (∀ id, ∃ msg, ∀ (σ : Type) (db : DB σ) (st : σ),
        updateHandler uuidV db st id (some sub) = (st, ⟨400, Body.text msg⟩))) ∧
    (∀ start_date end_date user_id service_name,
      validateFilter uuidV (sumFilter start_date end_date user_id service_name) ≠ none →
      ∃ msg, ∀ (σ : Type) (db : DB σ) (st : σ),
        sumHandler uuidV db st start_date end_date user_id service_name =
          some ⟨400, Body.text msg⟩) := by
  refine ⟨?_, ?_⟩
  · intro sub hsub
    cases h : validateSub uuidV sub with
    | none => exact absurd h hsub
    | some err =>
      refine ⟨⟨"invalid request: " ++ err, fun σ db st => by simp [createHandler, h]⟩, ?_⟩
      intro id
      cases h1 : uuidV id with
      | some e1 => exact ⟨"invalid request: " ++ e1, fun σ db st => by simp [updateHandler, h1]⟩
      | none => exact ⟨"invalid request: " ++ err, fun σ db st => by simp [updateHandler, h1, h]⟩
  · intro s e u n hf
    cases h : validateFilter uuidV (sumFilter s e u n) with
    | none => exact absurd h hf
    | some err => exact ⟨"invalid request: " ++ err, fun σ db st => by simp [sumHandler, h]⟩

/-- The body of `TestCreateHandler`, "no user id", is rejected by `validateSub`;
over the store that counts its calls, `createHandler` answers 400 and the
count stays 0, by claim C12. -/
theorem invalid_input_not_stored_witness :
    validateSub uuidValidate { sampleSub with User_ID := [] } ≠ none ∧
      ∃ msg, createHandler uuidValidate countingDB 0 (some { sampleSub with User_ID := [] }) =
        (0, ⟨400, Body.text msg⟩) :=
  ⟨by decide,
    ((invalid_input_not_stored uuidValidate).1 { sampleSub with User_ID := [] }
      (by decide)).1.elim fun msg h => ⟨msg, h Nat countingDB 0⟩⟩

/-- Claim C13: for a filter with the end `fe` and a record with no end, a pass
of the loop of `MockDB.Sum` gives the same `sum` for the record and for the
record with its end set to `fe`; and `MockDB.Sum` returns the same for a store
and for that store with every open-ended record closed at `fe`. -/
theorem sum_open_as_closed (filter : Sub) (fe : GoString) (hE : filter.End = some fe) :
    (∀ (s : Sub) (sum : Int), s.End = none →
      MockDB.sumBody (Split filter.Start '-') (Split fe '-') filter.User_ID filter.Service sum
          { s with End := some fe } =
        MockDB.sumBody (Split filter.Start '-') (Split fe '-') filter.User_ID filter.Service
          sum s) ∧
    (∀ m : MockDB, MockDB.Sum ⟨m.db.map (closeAt fe)⟩ filter = m.Sum filter) := by
  have hbody : ∀ (s : Sub) (sum : Int), s.End = none →
      MockDB.sumBody (Split filter.Start '-') (Split fe '-') filter.User_ID filter.Service sum
          { s with End := some fe } =
        MockDB.sumBody (Split filter.Start '-') (Split fe '-') filter.User_ID filter.Service
          sum s := by
    intro s sum hs
    unfold MockDB.sumBody
    simp only [hs, Split, le_refl, ge_iff_le, if_true]
  refine ⟨hbody, ?_⟩
  have hclose : ∀ (kv : GoString × Sub) (sum : Int),
      MockDB.sumBody (Split filter.Start '-') (Split fe '-') filter.User_ID filter.Service sum
          (closeAt fe kv).2 =
        MockDB.sumBody (Split filter.Start '-') (Split fe '-') filter.User_ID filter.Service
          sum kv.2 := by
    intro kv sum
    unfold closeAt
    cases hs : kv.2.End with
    | none => exact hbody kv.2 sum hs
    | some se => rfl
  have hloop : ∀ (db : List (GoString × Sub)) (sum : Int),
      MockDB.sumLoop (Split filter.Start '-') (Split fe '-') filter.User_ID filter.Service
          (db.map (closeAt fe)) sum =
        MockDB.sumLoop (Split filter.Start '-') (Split fe '-') filter.User_ID filter.Service
          db sum := by
    intro db
    induction db with
    | nil => intro sum; rfl
    | cons kv rest ih =>
      intro sum
      simp only [List.map_cons, MockDB.sumLoop, hclose kv sum]
      cases MockDB.sumBody (Split filter.Start '-') (Split fe '-') filter.User_ID
        filter.Service sum kv.2 with
      | none => rfl
      | some r => exact ih r
  intro m
  unfold MockDB.Sum
  simp only [hE, hloop m.db 0]

/-- The store of `TestSumHandler` with its two open-ended records closed at
10-2024 gives the same total for the window 07-2024 to 10-2024, by claim C13. -/
theorem sum_open_as_closed_witness :
    MockDB.Sum ⟨testStore.db.map (closeAt "10-2024".toList)⟩ sampleFilter =
      MockDB.Sum testStore sampleFilter :=
  (sum_open_as_closed sampleFilter "10-2024".toList rfl).2 testStore

/-! ## Further properties of `MockDB.Sum` -/

theorem validateDate_nil_fields (date : GoString) (h : validateDate date = none) :
    ∃ f0 f1, Split date '-' = [f0, f1] ∧ parsesIn f0 1 12 ∧ parsesIn f1 1970 9999 := by
  unfold validateDate at h
  split_ifs at h with h0
  split at h
  · rename_i f0 f1 hS
    refine ⟨f0, f1, hS, ?_, ?_⟩
    · split_ifs at h with h1 h2
      simp only [not_or, not_lt, Bool.not_eq_true, gt_iff_lt] at h1
      exact ⟨h1.2.2, h1.1, h1.2.1⟩
    · split_ifs at h with h1 h2
      simp only [not_or, not_lt, Bool.not_eq_true, gt_iff_lt] at h2
      exact ⟨h2.2.2, h2.1, h2.2.1⟩
  · cases h

theorem validateSub_nil_dates (uuidV : GoString → Option GoError) (sub : Sub)
    (h : validateSub uuidV sub = none) :
    0 ≤ sub.Price ∧ validateDate sub.Start = none ∧
      ∀ e, sub.End = some e → validateDate e = none := by
  unfold validateSub at h
  split_ifs at h with h1 h2
  cases h3 : uuidV sub.User_ID with
  | some err => simp [h3] at h
  | none =>
    cases h4 : validateDate sub.Start with
    | some err => simp [h3, h4] at h
    | none =>
      refine ⟨not_lt.mp h2, rfl, ?_⟩
      intro e he
      cases h6 : validateDate e with
      | some err => simp [h3, h4, he, h6] at h
      | none => rfl

/-- Claim C15: for a filter that passes `validateFilter` and a store whose
records pass `validateSub`, `MockDB.Sum` returns a total and a nil error
without a panic; the end of the filter is not nil, every period that is split
has exactly two fields, and the month field of the start and end of the filter
and of every record parses without error to an integer of 1..12. -/
theorem sum_total_on_validated (uuidV : GoString → Option GoError) (filter : Sub)
    (m : MockDB) (hf : validateFilter uuidV filter = none)
    (hs : ∀ kv ∈ m.db, validateSub uuidV kv.2 = none) :
    (∃ total, m.Sum filter = some (total, none)) ∧
    ((Split filter.Start '-').length = 2 ∧ parsesIn ((Split filter.Start '-').getD 0 []) 1 12) ∧
    (∃ fe, filter.End = some fe ∧ (Split fe '-').length = 2 ∧
      parsesIn ((Split fe '-').getD 0 []) 1 12) ∧
    (∀ kv ∈ m.db,
      ((Split kv.2.Start '-').length = 2 ∧ parsesIn ((Split kv.2.Start '-').getD 0 []) 1 12) ∧
      ∀ se, kv.2.End = some se →
        (Split se '-').length = 2 ∧ parsesIn ((Split se '-').getD 0 []) 1 12) := by
  have hdate : ∀ d, validateDate d = none →
      (Split d '-').length = 2 ∧ parsesIn ((Split d '-').getD 0 []) 1 12 := by
    intro d hd
    obtain ⟨f0, f1, hS, h0, _⟩ := validateDate_nil_fields d hd
    rw [hS]
    exact ⟨rfl, h0⟩
  obtain ⟨_, hstart, fe, hE, hend⟩ := (validateFilter_nil_fields uuidV filter).mp hf
  refine ⟨⟨_, sum_eq_recordAmounts m filter fe hE⟩, hdate _ hstart, ⟨fe, hE, hdate _ hend⟩, ?_⟩
  intro kv hkv
  obtain ⟨_, h1, h2⟩ := validateSub_nil_dates uuidV kv.2 (hs kv hkv)
  exact ⟨hdate _ h1, fun se hse => hdate _ (h2 se hse)⟩

/-- The filter of `TestValidateFilter` and the store of `TestSumHandler` pass
validation, so `MockDB.Sum` returns a total with a nil error, by claim C15. -/
theorem sum_total_on_validated_witness :
    ∃ total, MockDB.Sum testStore sampleFilter = some (total, none) :=
  (sum_total_on_validated uuidValidate sampleFilter testStore (by decide) (by decide)).1

theorem splitGo_fst_no_sep (sep : Char) (p : GoString) : sep ∉ (splitGo sep p).1 := by
  induction p with
  | nil => simp [splitGo]
  | cons c cs ih =>
    unfold splitGo
    split_ifs with h
    · simp
    · simp only [List.mem_cons, not_or]
      exact ⟨fun hc => h hc.symm, ih⟩

theorem splitGo_append_sep (sep : Char) (l y : GoString) (hl : sep ∉ l) :
    (splitGo sep (l ++ sep :: y)).1 = l := by
  induction l with
  | nil => simp [splitGo]
  | cons c cs ih =>
    simp only [List.mem_cons, not_or] at hl
    have hc : ¬ c = sep := fun h => hl.1 h.symm
    have ih1 := ih hl.2
    simp only [List.cons_append, splitGo, if_neg hc]
    exact congrArg (List.cons c) ih1

theorem monthOf_withYear (p : GoString) (y : Option GoString) :
    monthOf (withYear p y) = monthOf p := by
  cases y with
  | none => rfl
  | some y =>
    simp only [monthOf, withYear, monthField, Split, List.getD_cons_zero]
    rw [splitGo_append_sep '-' _ y (splitGo_fst_no_sep '-' p)]

theorem recordAmount_withYears (filter sub : Sub) (fy fe ys ye : Option GoString) :
    recordAmount (filter.withYears fy fe) (sub.withYears ys ye) = recordAmount filter sub := by
  unfold recordAmount matchesFilter Sub.withYears
  cases hF : filter.End <;> cases hS : sub.End <;>
    simp only [Option.map_none', Option.map_some', Option.getD_none, Option.getD_some,
      monthOf_withYear]

/-- Claim C16: replacing the year of the start or of the end of the filter, or
of the start or the end of any record of the store, by any other year, each
replacement being optional, leaves the result of `MockDB.Sum` as it was. -/
theorem sum_ignores_years (m : MockDB) (filter : Sub) (fy fe : Option GoString)
    (ry : GoString × Sub → Option GoString × Option GoString) :
    MockDB.Sum ⟨m.db.map fun kv => (kv.1, kv.2.withYears (ry kv).1 (ry kv).2)⟩
        (filter.withYears fy fe) =
      m.Sum filter := by
  cases hE : filter.End with
  | none =>
    have hE1 : (filter.withYears fy fe).End = none := by simp [Sub.withYears, hE]
    simp [MockDB.Sum, hE, hE1]
  | some e =>
    have hE1 : (filter.withYears fy fe).End = some (withYear e fe) := by
      simp [Sub.withYears, hE]
    rw [sum_eq_recordAmounts _ _ _ hE1, sum_eq_recordAmounts m filter e hE]
    simp only [List.map_map, Function.comp_def, recordAmount_withYears]

theorem commonMonths_eq (a b c d : Int) :
    (commonMonths a b c d : Int) = max 0 (min b d - max a c + 1) := by
  unfold commonMonths
  have h : Finset.Icc a b ∩ Finset.Icc c d = Finset.Icc (max a c) (min b d) := by
    ext x
    simp only [Finset.mem_inter, Finset.mem_Icc]
    omega
  rw [h, Int.card_Icc]
  omega

theorem closedFormAmount_eq_shared (filter sub : Sub) (fe : GoString)
    (hE : filter.End = some fe) (hy1 : yearOf fe = yearOf filter.Start)
    (hy2 : yearOf sub.Start = yearOf filter.Start)
    (hy3 : ∀ se, sub.End = some se → yearOf se = yearOf filter.Start) :
    closedFormAmount monthOf filter sub = sub.Price * (sharedMonths filter sub : Int) := by
  unfold closedFormAmount sharedMonths overlapUpper overlapLower
  rw [commonMonths_eq]
  simp only [hE, Option.getD_some]
  cases hS : sub.End with
  | none =>
    simp only [absMonth, hy1, hy2]
    congr 1
    omega
  | some se =>
    simp only [absMonth, hy1, hy2, hy3 se hS]
    congr 1
    omega

/-- Claim C14, as stated, fails: the window 07-2024 to 09-2024 and the store
holding one record of price `2^62` from 07-2024 to 09-2024 meet every
condition of the claim, the three common months give the sum `3 * 2^62`, and
`sumHandler` over the in-memory store answers 200 with the total `-2^62`. -/
theorem sumHandler_wraps_large_total :
    (validateFilter uuidValidate (sumFilter "07-2024".toList "09-2024".toList [] []) = none ∧
      absMonth "07-2024".toList ≤ absMonth "09-2024".toList ∧
      validateSub uuidValidate largeSub = none ∧
      yearOf "09-2024".toList = yearOf "07-2024".toList ∧
      yearOf largeSub.Start = yearOf "07-2024".toList ∧
      yearOf (largeSub.End.getD []) = yearOf "07-2024".toList ∧
      absMonth largeSub.Start ≤ absMonth (largeSub.End.getD []) ∧
      absMonth "07-2024".toList ≤ absMonth (largeSub.End.getD [])) ∧
    monthsTotal (sumFilter "07-2024".toList "09-2024".toList [] [])
      [(sampleUser, largeSub)] = 3 * 2 ^ 62 ∧
    sumHandler uuidValidate (MockDB.asDB otherUser) ⟨[(sampleUser, largeSub)]⟩
      "07-2024".toList "09-2024".toList [] [] = some ⟨200, Body.jsonSum (-(2 ^ 62))⟩ :=
  ⟨⟨by decide, by decide, by decide, by decide, by decide, by decide, by decide, by decide⟩,
    by decide, by decide⟩

/-- Claim C14, amended: for a query whose filter passes `validateFilter`, with
start not after end, and a store of records that pass `validateSub`, whose
periods all lie in the calendar year of the filter, with start not after end
and no closed record ending before the start month of the filter, `sumHandler`
over the in-memory store answers 200 with the sum over the matching records of
price × the number of common months, reduced to 64 bits; the total is that sum
itself when the sum is below `2^63`. -/
theorem sumHandler_total (uuidV : GoString → Option GoError) (newId : GoString) (m : MockDB)
    (start_date end_date user_id service_name : GoString)
    (hf : validateFilter uuidV (sumFilter start_date end_date user_id service_name) = none)
    (hwin : absMonth start_date ≤ absMonth end_date)
    (hs : ∀ kv ∈ m.db, validateSub uuidV kv.2 = none)
    (hyear : yearOf end_date = yearOf start_date ∧
      ∀ kv ∈ m.db, yearOf kv.2.Start = yearOf start_date ∧
        ∀ se, kv.2.End = some se → yearOf se = yearOf start_date)
    (hord : ∀ kv ∈ m.db, ∀ se, kv.2.End = some se →
      absMonth kv.2.Start ≤ absMonth se ∧ absMonth start_date ≤ absMonth se) :
    sumHandler uuidV (MockDB.asDB newId) m start_date end_date user_id service_name =
        some ⟨200, Body.jsonSum (wrapInt
          (monthsTotal (sumFilter start_date end_date user_id service_name) m.db))⟩ ∧
      (monthsTotal (sumFilter start_date end_date user_id service_name) m.db < 2 ^ 63 →
        sumHandler uuidV (MockDB.asDB newId) m start_date end_date user_id service_name =
          some ⟨200, Body.jsonSum
            (monthsTotal (sumFilter start_date end_date user_id service_name) m.db)⟩) := by
  have hsum := sum_eq_recordAmounts m (sumFilter start_date end_date user_id service_name)
    end_date rfl
  have hgap : ∀ kv ∈ m.db,
      matchesFilter (sumFilter start_date end_date user_id service_name) kv.2 = true →
      overlapLower monthOf (sumFilter start_date end_date user_id service_name) kv.2 ≤
          overlapUpper monthOf (sumFilter start_date end_date user_id service_name) kv.2 + 1 ∨
        (monthOf (sumFilter start_date end_date user_id service_name).Start <
            monthOf kv.2.Start ∧
          monthOf ((sumFilter start_date end_date user_id service_name).End.getD []) <
            monthOf kv.2.Start) := by
    intro kv hkv _
    have hy := hyear.2 kv hkv
    have ho := hord kv hkv
    unfold overlapLower overlapUpper
    simp only [sumFilter, Option.getD_some]
    simp only [absMonth, hyear.1] at hwin
    cases hS : kv.2.End with
    | none =>
      simp only []
      omega
    | some se =>
      have ho1 := ho se hS
      simp only [absMonth, hy.1, hy.2 se hS] at ho1
      simp only []
      omega
  have h1 := recordAmounts_eq_closedFormSum
    (sumFilter start_date end_date user_id service_name) m.db hgap
  have h2 : closedFormSum monthOf (sumFilter start_date end_date user_id service_name) m.db =
      monthsTotal (sumFilter start_date end_date user_id service_name) m.db := by
    unfold closedFormSum monthsTotal
    congr 1
    apply List.map_congr_left
    intro sub hsub
    obtain ⟨hmem, _⟩ := List.mem_filter.mp hsub
    obtain ⟨kv, hkv, rfl⟩ := List.mem_map.mp hmem
    exact closedFormAmount_eq_shared _ kv.2 end_date rfl hyear.1 (hyear.2 kv hkv).1
      (hyear.2 kv hkv).2
  have hres : sumHandler uuidV (MockDB.asDB newId) m start_date end_date user_id
      service_name = some ⟨200, Body.jsonSum (wrapInt
        (monthsTotal (sumFilter start_date end_date user_id service_name) m.db))⟩ := by
    rw [h1, h2] at hsum
    simp [sumHandler, hf, MockDB.asDB, hsum, mockErr]
  refine ⟨hres, fun hlt => ?_⟩
  have hnonneg : 0 ≤ monthsTotal (sumFilter start_date end_date user_id service_name) m.db := by
    unfold monthsTotal
    apply List.sum_nonneg
    intro x hx
    obtain ⟨sub, hsub, rfl⟩ := List.mem_map.mp hx
    obtain ⟨hmem, _⟩ := List.mem_filter.mp hsub
    obtain ⟨kv, hkv, rfl⟩ := List.mem_map.mp hmem
    exact mul_nonneg (validateSub_nil_dates uuidV kv.2 (hs kv hkv)).1 (Int.natCast_nonneg _)
  rw [hres, wrapInt_of_range _ (by linarith) hlt]

/-- The record of price 400 from 07-2024 without end and the window 07-2024 to
09-2024 meet the conditions of the amended claim C14: the total is 1200. -/
theorem sumHandler_total_witness :
    monthsTotal (sumFilter "07-2024".toList "09-2024".toList [] [])
        [(sampleUser, openSub)] = 1200 ∧
      sumHandler uuidValidate (MockDB.asDB otherUser) ⟨[(sampleUser, openSub)]⟩
        "07-2024".toList "09-2024".toList [] [] =
        some ⟨200, Body.jsonSum (monthsTotal (sumFilter "07-2024".toList "09-2024".toList [] [])
          [(sampleUser, openSub)])⟩ :=
  ⟨by decide,
    (sumHandler_total uuidValidate otherUser ⟨[(sampleUser, openSub)]⟩ "07-2024".toList
      "09-2024".toList [] [] (by decide) (by decide) (by decide) (by decide) (by decide)).2
      (by decide)⟩

end Subs
